import Mathlib

/-!
Verification development for the flight-search chatbot pipeline in `main.py`.

The Python source is shallowly embedded: each node function of the workflow
becomes a Lean function of the same name over an explicit `WorkflowState`.
Python dictionaries with a fixed set of used keys become structures whose
fields are `Option`-valued (a `none` field models an absent key); direct
indexing `d[k]` becomes a lookup that raises an explicit `KeyError` value,
while `d.get(k)` becomes a total `Option` read.  The module-level
`cached_flights` dictionary is passed explicitly as an association list.
The external HTTP provider (`requests.get` + `raise_for_status` + `.json()`)
is modelled as an oracle `Provider` mapping (departure iata, limit, offset)
to either a transport failure or a list of raw flight records; every network
request and cache lookup the engine performs is recorded in an event log so
that claims about request counts can be stated.

The only abstraction over an external library: `datetime.fromisoformat` on a
scheduled-departure string followed by `.hour` is modelled by storing the
parsed local hour (a `Nat`) directly in the record; a missing or falsy
scheduled value is `none`.  This is the level at which the specification
speaks ("the parsed hour", "records lacking a scheduled departure").
-/

namespace Flightbot

/-! ## Data model -/

/-- The `departure` sub-dictionary of a provider flight record.
`scheduled` holds the parsed local hour of the ISO-8601 timestamp
(see the module docstring); `none` models an absent/falsy value. -/
structure Departure where
  airport : Option String := none
  scheduled : Option Nat := none
deriving DecidableEq

/-- The `airline` sub-dictionary of a provider flight record. -/
structure Airline where
  name : Option String := none
deriving DecidableEq

/-- The `flight` sub-dictionary of a provider flight record. -/
structure FlightNo where
  iata : Option String := none
deriving DecidableEq

/-- The `arrival` sub-dictionary of a provider flight record. -/
structure Arrival where
  airport : Option String := none
deriving DecidableEq

/-- A loosely-typed provider flight record: every nested dictionary may be
absent (`none`), mirroring the untyped JSON the source indexes into. -/
structure FlightRecord where
  departure : Option Departure := none
  airline : Option Airline := none
  flight : Option FlightNo := none
  arrival : Option Arrival := none
deriving DecidableEq

/-- The mutable `state.context` dictionary, restricted to the keys the source
reads and writes: `raw_text`, `cities`, `time`, `iatas`.  An outer `none`
models the key being absent from the dictionary; for `time`, the inner
`Option` models the Python value `None` stored under a present key
(`extract_entities` stores `None` when no keyword matches). -/
structure Context where
  raw_text : String := ""
  cities : Option (List String) := none
  time : Option (Option String) := none
  iatas : Option (List String) := none
deriving DecidableEq

/-- `WorkflowState` from the source.  `results` is a dictionary of which only
the `"flights"` key is ever used, embedded as `results_flights`
(`none` models the key being absent). -/
structure WorkflowState where
  context : Context := {}
  results_flights : Option (List FlightRecord) := none
  clarification_needed : Bool := false
  clarifying_question : String := ""
deriving DecidableEq

/-- A fresh state for one user query: the chatbot stores the user input under
`context["raw_text"]` and leaves everything else unset. -/
def initState (text : String) : WorkflowState :=
  { context := { raw_text := text } }

/-! ## Python primitives: substring containment, dict access -/

/-- Whether `needle` is a prefix of `hay` (over character lists). -/
def startsWithL (needle hay : List Char) : Bool :=
  match needle, hay with
  | [], _ => true
  | _ :: _, [] => false
  | c :: cs, d :: ds => c == d && startsWithL cs ds

/-- Whether `needle` occurs as a contiguous substring of `hay`. -/
def containsL (needle : List Char) : List Char → Bool
  | [] => startsWithL needle []
  | d :: ds => startsWithL needle (d :: ds) || containsL needle ds

/-- Python's `needle in hay` on strings: substring containment. -/
def containsStr (hay needle : String) : Bool :=
  containsL needle.data hay.data

/-- Python's `str.lower()` on the ASCII texts this program handles, modelled
character by character (kernel-computable, unlike `String.toLower`). -/
def strLower (s : String) : String :=
  String.mk (s.data.map Char.toLower)

/-- Python's `d[key]` direct indexing on an embedded dictionary field:
a present value succeeds, an absent key raises `KeyError`. -/
def pyIndex {α : Type} (o : Option α) (key : String) : Except String α :=
  match o with
  | some v => Except.ok v
  | none => Except.error ("KeyError: " ++ key)

/-! ## Static configuration -/

/-- The `city_to_iata` lookup table, as an ordered association list: Python
dictionaries preserve insertion order, so iterating `city_to_iata.keys()`
visits Delhi, Mumbai, Bangalore in this order. -/
def city_to_iata : List (String × String) :=
  [("Delhi", "DEL"), ("Mumbai", "BOM"), ("Bangalore", "BLR")]

/-- `city_to_iata.get(city)`: lookup by key. -/
def lookupCity (city : String) : Option String :=
  (city_to_iata.find? (fun p => p.1 == city)).map Prod.snd

/-! ## Extractor, evaluator, normalizer -/

/-- The per-city condition of `parse_request_text`:
`city.lower() in text or city_to_iata[city].lower() in text`, where `p`
is the (city, iata) pair of the table entry and `text` is already lowered. -/
def cityMatches (text : String) (p : String × String) : Bool :=
  containsStr text (strLower p.1) || containsStr text (strLower p.2)

/-- `parse_request_text`: lowers the accumulated text and keeps every table
city whose name or iata code occurs as a substring.  Iterating the
(city, iata) pairs of the association list models iterating
`city_to_iata.keys()` and indexing the dictionary at each key. -/
def parse_request_text (st : WorkflowState) : WorkflowState :=
  let text := strLower st.context.raw_text
  let cities := (city_to_iata.filter (cityMatches text)).map Prod.fst
  { st with context := { st.context with cities := some cities } }

/-- `extract_entities`: first keyword among "morning", "afternoon", "night"
wins; absence stores Python `None` (inner `none`) under the `time` key. -/
def extract_entities (st : WorkflowState) : WorkflowState :=
  let text := strLower st.context.raw_text
  let t : Option String :=
    if containsStr text "morning" then some "morning"
    else if containsStr text "afternoon" then some "afternoon"
    else if containsStr text "night" then some "night"
    else none
  { st with context := { st.context with time := some t } }

/-- Python truthiness of `state.context.get("cities")`: falsy when the key is
absent or the stored list is empty. -/
def citiesFalsy : Option (List String) → Bool
  | none => true
  | some [] => true
  | some (_ :: _) => false

/-- Python truthiness of `state.context.get("time")`: falsy when the key is
absent, stores `None`, or stores the empty string. -/
def timeFalsy : Option (Option String) → Bool
  | some (some t) => t == ""
  | _ => true

/-- `solution_evaluation`: collects the missing-field names (city before
time), and on any missing field sets the clarification flag and builds the
joined question; otherwise clears only the flag (the question string is left
as it was). -/
def solution_evaluation (st : WorkflowState) : WorkflowState :=
  let missing_fields :=
    (if citiesFalsy st.context.cities then ["departure city"] else []) ++
    (if timeFalsy st.context.time then ["departure time (morning/afternoon/night)"] else [])
  if missing_fields.isEmpty then
    { st with clarification_needed := false }
  else
    { st with clarification_needed := true,
              clarifying_question :=
                "Could you please specify " ++ String.intercalate ", " missing_fields ++ "?" }

/-- The body of the `for city in cities` loop of `normalize_fields`:
append `city_to_iata.get(city)` when it is truthy (present and nonempty). -/
def appendIata (acc : List String) (city : String) : List String :=
  match lookupCity city with
  | some iata => if iata == "" then acc else acc ++ [iata]
  | none => acc

/-- `normalize_fields`: folds the loop body over `context.get("cities", [])`
and stores the accumulated codes under `iatas`. -/
def normalize_fields (st : WorkflowState) : WorkflowState :=
  let iatas := (st.context.cities.getD []).foldl appendIata []
  { st with context := { st.context with iatas := some iatas } }

/-! ## Time filter -/

/-- `f.get("departure", {}).get("scheduled")`: the scheduled-departure hour of
a record, read through the defaulted dictionary accesses of the source. -/
def depSched (f : FlightRecord) : Option Nat :=
  (f.departure.getD {}).scheduled

/-- The per-record body of the `filter_flights_by_time` loop: a record lacking
a scheduled departure is dropped; otherwise the `elif` chain on the bucket
name tests the hour ranges of the source. -/
def keepFlight (time_bucket : String) (f : FlightRecord) : Bool :=
  match depSched f with
  | none => false
  | some hour =>
    match time_bucket with
    | "morning" => decide (5 ≤ hour) && decide (hour < 12)
    | "afternoon" => decide (12 ≤ hour) && decide (hour < 17)
    | "night" => decide (17 ≤ hour) || decide (hour < 5)
    | _ => false

/-- `filter_flights_by_time`: the accumulating loop of the source is the list
filter by `keepFlight`. -/
def filter_flights_by_time (flights : List FlightRecord) (time_bucket : String) :
    List FlightRecord :=
  flights.filter (keepFlight time_bucket)

/-! ## Cache and fetch engine -/

/-- The module-level `cached_flights` dictionary, as an ordered association
list with Python dictionary semantics (lookup finds the unique binding,
assignment overwrites in place or appends a fresh key). -/
abbrev Cache := List (String × List FlightRecord)

/-- `key in cached_flights` / `cached_flights[key]` read. -/
def dictGet (d : Cache) (k : String) : Option (List FlightRecord) :=
  match d with
  | [] => none
  | (k', v) :: rest => if k' == k then some v else dictGet rest k

/-- `cached_flights[key] = v` assignment. -/
def dictSet (d : Cache) (k : String) (v : List FlightRecord) : Cache :=
  match d with
  | [] => [(k, v)]
  | (k', v') :: rest => if k' == k then (k, v) :: rest else (k', v') :: dictSet rest k v

/-- `retrieve_from_cache`: on a hit the cached list replaces
`results["flights"]`; on a miss the previous value (possibly absent) is kept
untouched. -/
def retrieve_from_cache (cache : Cache) (results : Option (List FlightRecord))
    (key : String) : Option (List FlightRecord) :=
  match dictGet cache key with
  | some v => some v
  | none => results

/-- `store_answer`: writes `state.results.get("flights", [])` to the cache
under `key`. -/
def store_answer (cache : Cache) (results : Option (List FlightRecord))
    (key : String) : Cache :=
  dictSet cache key (results.getD [])

/-- The outcome of one provider page request: a transport/HTTP failure caught
as `requests.RequestException`, or the `data` list of the JSON envelope. -/
inductive ReqOutcome where
  | failed (msg : String)
  | got (data : List FlightRecord)
deriving DecidableEq

/-- The external provider as an oracle: arguments are the departure iata, the
`limit` and the `offset` query parameters of the request URL. -/
def Provider : Type := String → Nat → Nat → ReqOutcome

/-- Observable actions of the fetch engine, in order: cache lookups (with
whether the key was present) and provider page requests (with their raw
outcome). -/
inductive Event where
  | lookup (key : String) (hit : Bool)
  | request (iata : String) (lim off : Nat) (outcome : ReqOutcome)
deriving DecidableEq

/-- `f"{iata}_{state.context.get('time', 'any')}"`: the default `'any'` is
used only when the `time` key is absent; a present `None` is formatted by the
f-string as the literal `"None"`. -/
def cacheKeyOf (iata : String) (te : Option (Option String)) : String :=
  iata ++ "_" ++
    (match te with
     | none => "any"
     | some none => "None"
     | some (some t) => t)

/-- Truthiness of `state.context.get("time")` as tested on line 115 of the
source before applying the time filter. -/
def timeTruthy : Option (Option String) → Bool
  | some (some t) => !(t == "")
  | _ => false

/-- `state.context["time"]` as read on line 116 (only reached when truthy). -/
def timeStr : Option (Option String) → String
  | some (some t) => t
  | _ => ""

/-- Lines 115–116: the page data is time-filtered exactly when the context's
time entry is truthy. -/
def applyTimeFilter (te : Option (Option String)) (raw : List FlightRecord) :
    List FlightRecord :=
  if timeTruthy te then filter_flights_by_time raw (timeStr te) else raw

/-- The `while page <= max_pages` pagination loop for one location code,
with `rem` the number of pages still allowed (`max_pages - page + 1`).
Each iteration requests `limit=100&offset=(page-1)*100`; a transport failure
stops the loop keeping what was accumulated; a page whose (possibly filtered)
data is empty also stops the loop.  Returns the accumulated `flights_data`
and the request events issued. -/
def fetchPages (provider : Provider) (te : Option (Option String)) (iata : String) :
    Nat → Nat → List FlightRecord × List Event
  | _, 0 => ([], [])
  | page, rem + 1 =>
    let off := (page - 1) * 100
    match provider iata 100 off with
    | ReqOutcome.failed msg => ([], [Event.request iata 100 off (ReqOutcome.failed msg)])
    | ReqOutcome.got raw =>
      let data := applyTimeFilter te raw
      if data.isEmpty then ([], [Event.request iata 100 off (ReqOutcome.got raw)])
      else
        let rest := fetchPages provider te iata (page + 1) rem
        (data ++ rest.1, Event.request iata 100 off (ReqOutcome.got raw) :: rest.2)

/-- Intermediate state of the `for iata in ...` loop of `execute_api_calls`:
the `all_flights_combined` accumulator, the current `results["flights"]`
entry, the cache, and the event log so far. -/
structure EngineAcc where
  combined : List FlightRecord
  results : Option (List FlightRecord)
  cache : Cache
  log : List Event
deriving DecidableEq

/-- One iteration of the per-iata loop (lines 93–125): cache lookup via
`retrieve_from_cache`, the truthiness test `if flights:` on
`results.get("flights", [])` (append and skip the network when nonempty),
otherwise up to two pages of pagination followed by `store_answer`. -/
def stepIata (provider : Provider) (te : Option (Option String))
    (acc : EngineAcc) (iata : String) : EngineAcc :=
  let key := cacheKeyOf iata te
  let hit := dictGet acc.cache key
  let results := retrieve_from_cache acc.cache acc.results key
  let lookupEv := Event.lookup key hit.isSome
  let flights := results.getD []
  if flights.isEmpty then
    let fp := fetchPages provider te iata 1 2
    { combined := acc.combined ++ fp.1,
      results := some fp.1,
      cache := store_answer acc.cache (some fp.1) key,
      log := acc.log ++ lookupEv :: fp.2 }
  else
    { combined := acc.combined ++ flights,
      results := results,
      cache := acc.cache,
      log := acc.log ++ [lookupEv] }

/-- Result of running `execute_api_calls`: the returned state, the updated
global cache, and the log of observable actions. -/
structure RunResult where
  state : WorkflowState
  cache : Cache
  log : List Event
deriving DecidableEq

/-- The loop state at entry of `execute_api_calls`: empty combined list and
log, the state's current `results["flights"]` entry, the global cache. -/
def initAcc (st : WorkflowState) (cache : Cache) : EngineAcc :=
  { combined := [], results := st.results_flights, cache := cache, log := [] }

/-- `execute_api_calls`: folds the per-iata step over
`state.context.get("iatas", [])` and finally stores the combined list under
`results["flights"]`. -/
def execute_api_calls (provider : Provider) (cache : Cache)
    (st : WorkflowState) : RunResult :=
  let acc := (st.context.iatas.getD []).foldl (stepIata provider st.context.time)
    (initAcc st cache)
  { state := { st with results_flights := some acc.combined },
    cache := acc.cache,
    log := acc.log }

/-! ## Aggregator -/

/-- One entry of the grouped output dictionary built on lines 140–145. -/
structure MergedEntry where
  airline : String
  flight_iata : String
  departure : Nat
  arrival : String
deriving DecidableEq

/-- Appending an entry to the group of `origin`, creating the group at the end
on first sight — Python dictionary insertion order. -/
def addMerged (m : List (String × List MergedEntry)) (origin : String)
    (e : MergedEntry) : List (String × List MergedEntry) :=
  match m with
  | [] => [(origin, [e])]
  | (k, v) :: rest =>
    if k == origin then (k, v ++ [e]) :: rest else (k, v) :: addMerged rest origin e

/-- The value of the `"result"` key of the dictionary `complete_payload`
returns: the sentinel string for an empty flight list, or the grouped map. -/
inductive PayloadOut where
  | noFlights
  | merged (m : List (String × List MergedEntry))
deriving DecidableEq

/-- `complete_payload`: the empty-list sentinel, then the grouping loop.
All record fields are read by direct indexing in source order
(`f["departure"]["airport"]`, then the dict-literal values), so a missing
nested key surfaces as an uncaught `KeyError` for the whole call. -/
def complete_payload (st : WorkflowState) : Except String PayloadOut :=
  let flights_data := st.results_flights.getD []
  if flights_data.isEmpty then Except.ok PayloadOut.noFlights
  else do
    let m ← flights_data.foldlM
      (fun m f => do
        let dep ← pyIndex f.departure "departure"
        let origin ← pyIndex dep.airport "airport"
        let air ← pyIndex f.airline "airline"
        let airName ← pyIndex air.name "name"
        let fl ← pyIndex f.flight "flight"
        let fiata ← pyIndex fl.iata "iata"
        let dep2 ← pyIndex f.departure "departure"
        let sched ← pyIndex dep2.scheduled "scheduled"
        let arr ← pyIndex f.arrival "arrival"
        let arrAirport ← pyIndex arr.airport "airport"
        pure (addMerged m origin
          { airline := airName, flight_iata := fiata,
            departure := sched, arrival := arrAirport }))
      ([] : List (String × List MergedEntry))
    pure (PayloadOut.merged m)

/-! ## Observations on event logs -/

/-- Whether an event is a provider request for location code `i`. -/
def isReqTo (i : String) : Event → Bool
  | Event.request j _ _ _ => j == i
  | _ => false

/-- The provider requests for location code `i`, in order. -/
def reqsTo (i : String) (log : List Event) : List Event :=
  log.filter (isReqTo i)

/-- The cache keys looked up, in order. -/
def lookupKeys (log : List Event) : List String :=
  log.filterMap (fun e => match e with
    | Event.lookup k _ => some k
    | _ => none)

/-- The `limit` parameter of a request event (0 for lookups). -/
def reqLim : Event → Nat
  | Event.request _ lim _ _ => lim
  | _ => 0

/-- How many raw records a single event delivered. -/
def rawCount : Event → Nat
  | Event.request _ _ _ (ReqOutcome.got raw) => raw.length
  | _ => 0

/-- Total raw records delivered across a list of events. -/
def rawTotal (l : List Event) : Nat :=
  (l.map rawCount).sum

/-- Whether an event is a failed provider request. -/
def isFailedEv : Event → Bool
  | Event.request _ _ _ (ReqOutcome.failed _) => true
  | _ => false

/-- A failed request can only be the last event of the list: pagination never
continues past a transport error. -/
def failedLastProp (l : List Event) : Prop :=
  ∀ pre e post, l = pre ++ e :: post → isFailedEv e = true → post = []

/-- The request events one location code's pagination may emit: at most two,
all requests to that code with `limit = 100`, and any failure terminal. -/
def GoodSeg (i : String) (l : List Event) : Prop :=
  l.length ≤ 2 ∧ (∀ e ∈ l, ∃ off out, e = Event.request i 100 off out) ∧ failedLastProp l

theorem goodSeg_nil (i : String) : GoodSeg i [] := by
  refine ⟨by simp, by simp, ?_⟩
  intro pre e post hpre _
  exact absurd hpre (by simp)

/-! ### Lemmas on `fetchPages` -/

theorem fetchPages_shape (provider : Provider) (te : Option (Option String))
    (iata : String) (page rem : Nat) :
    ∀ e ∈ (fetchPages provider te iata page rem).2,
      ∃ off out, e = Event.request iata 100 off out := by
  induction rem generalizing page with
  | zero => intro e he; simp [fetchPages] at he
  | succ rem ih =>
    intro e he
    simp only [fetchPages] at he
    rcases hp : provider iata 100 ((page - 1) * 100) with msg | raw <;> rw [hp] at he
    · simp at he
      exact ⟨_, _, he⟩
    · by_cases hd : (applyTimeFilter te raw).isEmpty <;> simp [hd] at he
      · exact ⟨_, _, he⟩
      · rcases he with he | he
        · exact ⟨_, _, he⟩
        · exact ih (page + 1) e he

theorem fetchPages_len (provider : Provider) (te : Option (Option String))
    (iata : String) (page rem : Nat) :
    (fetchPages provider te iata page rem).2.length ≤ rem := by
  induction rem generalizing page with
  | zero => simp [fetchPages]
  | succ rem ih =>
    simp only [fetchPages]
    rcases hp : provider iata 100 ((page - 1) * 100) with msg | raw
    · simp
    · by_cases hd : (applyTimeFilter te raw).isEmpty <;> simp [hd]
      exact ih (page + 1)

theorem fetchPages_failedLast (provider : Provider) (te : Option (Option String))
    (iata : String) (page rem : Nat) :
    failedLastProp (fetchPages provider te iata page rem).2 := by
  induction rem generalizing page with
  | zero =>
    intro pre e post hpre _
    exact absurd hpre (by simp [fetchPages])
  | succ rem ih =>
    intro pre e post hpre hfail
    simp only [fetchPages] at hpre
    rcases hp : provider iata 100 ((page - 1) * 100) with msg | raw <;> rw [hp] at hpre
    · cases pre with
      | nil =>
        simp at hpre
        exact hpre.2
      | cons p pre' =>
        simp at hpre
    · by_cases hd : (applyTimeFilter te raw).isEmpty
      · cases pre with
        | nil =>
          simp [hd] at hpre
          exact hpre.2
        | cons p pre' =>
          simp [hd] at hpre
      · cases pre with
        | nil =>
          simp [hd] at hpre
          rw [← hpre.1] at hfail
          exact absurd hfail (by simp [isFailedEv])
        | cons p pre' =>
          simp [hd] at hpre
          exact ih (page + 1) pre' e post hpre.2 hfail

theorem fetchPages_got_sub (provider : Provider) (te : Option (Option String))
    (iata : String) (page rem : Nat) :
    ∀ e ∈ (fetchPages provider te iata page rem).2,
      ∀ i lim off raw, e = Event.request i lim off (ReqOutcome.got raw) →
      ∀ x ∈ applyTimeFilter te raw, x ∈ (fetchPages provider te iata page rem).1 := by
  induction rem generalizing page with
  | zero => intro e he; simp [fetchPages] at he
  | succ rem ih =>
    intro e he i lim off raw hereq x hx
    simp only [fetchPages] at he ⊢
    rcases hp : provider iata 100 ((page - 1) * 100) with msg | raw' <;> rw [hp] at he
    · simp at he
      rw [he] at hereq
      exact absurd hereq (by simp)
    · by_cases hd : (applyTimeFilter te raw').isEmpty <;> simp [hd] at he ⊢
      · rw [he] at hereq
        injection hereq with h1 h2 h3 h4
        injection h4 with h5
        rw [h5] at hd
        rw [List.isEmpty_iff] at hd
        rw [hd] at hx
        exact absurd hx (by simp)
      · rcases he with he | he
        · rw [he] at hereq
          injection hereq with h1 h2 h3 h4
          injection h4 with h5
          exact Or.inl (by rw [h5]; exact hx)
        · exact Or.inr (ih (page + 1) e he i lim off raw hereq x hx)

/-! ### Lemmas on `stepIata` and the per-iata fold -/

theorem lookupKeys_append (a b : List Event) :
    lookupKeys (a ++ b) = lookupKeys a ++ lookupKeys b := by
  simp [lookupKeys]

theorem lookupKeys_of_requests (l : List Event) (i : String)
    (h : ∀ e ∈ l, ∃ off out, e = Event.request i 100 off out) :
    lookupKeys l = [] := by
  rw [lookupKeys, List.filterMap_eq_nil_iff]
  intro e he
  rcases h e he with ⟨off, out, rfl⟩
  rfl

theorem reqsTo_append (i : String) (a b : List Event) :
    reqsTo i (a ++ b) = reqsTo i a ++ reqsTo i b := by
  simp [reqsTo]

theorem stepIata_lookupKeys (provider : Provider) (te : Option (Option String))
    (acc : EngineAcc) (i : String) :
    lookupKeys (stepIata provider te acc i).log =
      lookupKeys acc.log ++ [cacheKeyOf i te] := by
  by_cases hE : ((retrieve_from_cache acc.cache acc.results (cacheKeyOf i te)).getD []).isEmpty
  · simp only [stepIata, hE, if_true, lookupKeys_append]
    rw [show lookupKeys (Event.lookup (cacheKeyOf i te)
        (dictGet acc.cache (cacheKeyOf i te)).isSome :: (fetchPages provider te i 1 2).2) =
        cacheKeyOf i te :: lookupKeys (fetchPages provider te i 1 2).2 from rfl]
    rw [lookupKeys_of_requests _ i (fetchPages_shape provider te i 1 2)]
  · simp only [stepIata, hE, Bool.false_eq_true, if_false, lookupKeys_append]
    rfl

theorem stepIata_reqsTo_ne (provider : Provider) (te : Option (Option String))
    (acc : EngineAcc) (i j : String) (hne : j ≠ i) :
    reqsTo i (stepIata provider te acc j).log = reqsTo i acc.log := by
  by_cases hE : ((retrieve_from_cache acc.cache acc.results (cacheKeyOf j te)).getD []).isEmpty
  · simp only [stepIata, hE, if_true, reqsTo_append]
    have h1 : reqsTo i (Event.lookup (cacheKeyOf j te)
        (dictGet acc.cache (cacheKeyOf j te)).isSome :: (fetchPages provider te j 1 2).2) = [] := by
      rw [reqsTo, List.filter_eq_nil_iff]
      intro e he
      rcases List.mem_cons.mp he with rfl | he'
      · simp [isReqTo]
      · rcases fetchPages_shape provider te j 1 2 e he' with ⟨off, out, rfl⟩
        simp [isReqTo, hne]
    rw [h1, List.append_nil]
  · simp only [stepIata, hE, Bool.false_eq_true, if_false, reqsTo_append]
    rw [show reqsTo i [Event.lookup (cacheKeyOf j te)
        (dictGet acc.cache (cacheKeyOf j te)).isSome] = [] from rfl, List.append_nil]

theorem stepIata_reqsTo_self (provider : Provider) (te : Option (Option String))
    (acc : EngineAcc) (i : String) :
    ∃ T, reqsTo i (stepIata provider te acc i).log = reqsTo i acc.log ++ T ∧
      GoodSeg i T := by
  by_cases hE : ((retrieve_from_cache acc.cache acc.results (cacheKeyOf i te)).getD []).isEmpty
  · refine ⟨(fetchPages provider te i 1 2).2, ?_, ?_, ?_, ?_⟩
    · simp only [stepIata, hE, if_true, reqsTo_append]
      congr 1
      rw [show reqsTo i (Event.lookup (cacheKeyOf i te)
          (dictGet acc.cache (cacheKeyOf i te)).isSome :: (fetchPages provider te i 1 2).2) =
          reqsTo i (fetchPages provider te i 1 2).2 from by simp [reqsTo, isReqTo]]
      rw [reqsTo, List.filter_eq_self.mpr]
      intro e he
      rcases fetchPages_shape provider te i 1 2 e he with ⟨off, out, rfl⟩
      simp [isReqTo]
    · exact fetchPages_len provider te i 1 2
    · exact fetchPages_shape provider te i 1 2
    · exact fetchPages_failedLast provider te i 1 2
  · refine ⟨[], ?_, goodSeg_nil i⟩
    simp only [stepIata, hE, Bool.false_eq_true, if_false, reqsTo_append]
    rw [show reqsTo i [Event.lookup (cacheKeyOf i te)
        (dictGet acc.cache (cacheKeyOf i te)).isSome] = [] from rfl, List.append_nil]

/-- The invariant carried along the per-iata fold for claim C4: every record a
successful page request delivered (after the engine's own time filtering)
already sits in the combined accumulator. -/
def FetchedKept (te : Option (Option String)) (acc : EngineAcc) : Prop :=
  ∀ e ∈ acc.log, ∀ i lim off raw, e = Event.request i lim off (ReqOutcome.got raw) →
    ∀ x ∈ applyTimeFilter te raw, x ∈ acc.combined

theorem stepIata_fetchedKept (provider : Provider) (te : Option (Option String))
    (acc : EngineAcc) (j : String) (hP : FetchedKept te acc) :
    FetchedKept te (stepIata provider te acc j) := by
  by_cases hE : ((retrieve_from_cache acc.cache acc.results (cacheKeyOf j te)).getD []).isEmpty
  · intro e he i lim off raw hereq x hx
    simp only [stepIata, hE, if_true] at he ⊢
    rcases List.mem_append.mp he with he | he
    · exact List.mem_append_left _ (hP e he i lim off raw hereq x hx)
    · rcases List.mem_cons.mp he with rfl | he'
      · exact absurd hereq (by simp)
      · exact List.mem_append_right _
          (fetchPages_got_sub provider te j 1 2 e he' i lim off raw hereq x hx)
  · intro e he i lim off raw hereq x hx
    simp only [stepIata, hE, Bool.false_eq_true, if_false] at he ⊢
    rcases List.mem_append.mp he with he | he
    · exact List.mem_append_left _ (hP e he i lim off raw hereq x hx)
    · rcases List.mem_cons.mp he with rfl | he'
      · exact absurd hereq (by simp)
      · exact absurd he' (by simp)

theorem run_lookupKeys (provider : Provider) (te : Option (Option String)) :
    ∀ (l : List String) (acc : EngineAcc),
      lookupKeys ((l.foldl (stepIata provider te) acc).log) =
        lookupKeys acc.log ++ l.map (fun i => cacheKeyOf i te) := by
  intro l
  induction l with
  | nil => intro acc; simp
  | cons j rest ih =>
    intro acc
    rw [List.foldl_cons, ih, stepIata_lookupKeys, List.map_cons, List.append_assoc,
      List.singleton_append]

theorem run_fetchedKept (provider : Provider) (te : Option (Option String)) :
    ∀ (l : List String) (acc : EngineAcc), FetchedKept te acc →
      FetchedKept te (l.foldl (stepIata provider te) acc) := by
  intro l
  induction l with
  | nil => intro acc h; exact h
  | cons j rest ih =>
    intro acc h
    exact ih _ (stepIata_fetchedKept provider te acc j h)

theorem run_reqsTo_notmem (provider : Provider) (te : Option (Option String)) :
    ∀ (l : List String) (acc : EngineAcc) (i : String), i ∉ l →
      reqsTo i ((l.foldl (stepIata provider te) acc).log) = reqsTo i acc.log := by
  intro l
  induction l with
  | nil => intro acc i _; rfl
  | cons j rest ih =>
    intro acc i hi
    rw [List.foldl_cons, ih _ i (fun h => hi (List.mem_cons_of_mem j h)),
      stepIata_reqsTo_ne provider te acc i j (fun h => hi (h ▸ List.mem_cons_self j rest))]

theorem run_reqsTo (provider : Provider) (te : Option (Option String)) :
    ∀ (l : List String) (acc : EngineAcc) (i : String), l.Nodup →
      ∃ T, reqsTo i ((l.foldl (stepIata provider te) acc).log) =
        reqsTo i acc.log ++ T ∧ GoodSeg i T := by
  intro l
  induction l with
  | nil => intro acc i _; exact ⟨[], by simp, goodSeg_nil i⟩
  | cons j rest ih =>
    intro acc i hnd
    rcases List.nodup_cons.mp hnd with ⟨hj, hrest⟩
    by_cases hij : j = i
    · subst hij
      rcases stepIata_reqsTo_self provider te acc j with ⟨T, hT, hgood⟩
      refine ⟨T, ?_, hgood⟩
      rw [List.foldl_cons, run_reqsTo_notmem provider te rest _ j hj, hT]
    · rcases ih (stepIata provider te acc j) i hrest with ⟨T, hT, hgood⟩
      refine ⟨T, ?_, hgood⟩
      rw [List.foldl_cons, hT, stepIata_reqsTo_ne provider te acc i j hij]

/-! ## Concrete fixtures -/

/-- A record whose scheduled departure parses to local hour `h`, used to probe
the time-filter boundaries. -/
def mkRec (h : Nat) : FlightRecord :=
  { departure := some { airport := some "A", scheduled := some h } }

/-- A fully well-formed provider record (morning flight, hour 6). -/
def goodFlight : FlightRecord :=
  { departure := some { airport := some "Indira Gandhi Intl", scheduled := some 6 },
    airline := some { name := some "Air India" },
    flight := some { iata := some "AI101" },
    arrival := some { airport := some "Chhatrapati Shivaji Intl" } }

/-- A malformed provider record: the `airline` dictionary is missing. -/
def noAirlineFlight : FlightRecord :=
  { departure := some { airport := some "Indira Gandhi Intl", scheduled := some 7 },
    flight := some { iata := some "XX1" },
    arrival := some { airport := some "B" } }

/-- Provider that serves one morning flight on DEL's first page and empty
pages everywhere else. -/
def providerDelOnly : Provider := fun iata _ off =>
  if iata == "DEL" && off == 0 then ReqOutcome.got [goodFlight] else ReqOutcome.got []

/-- Provider whose every page is empty. -/
def providerEmpty : Provider := fun _ _ _ => ReqOutcome.got []

/-- Provider that fails with a transport error on every DEL request and
serves one morning flight on every other code's first page. -/
def providerDelFails : Provider := fun iata _ off =>
  if iata == "DEL" then ReqOutcome.failed "boom"
  else if off == 0 then ReqOutcome.got [goodFlight] else ReqOutcome.got []

/-- A ready-to-fetch state for the two codes DEL and BOM, morning bucket. -/
def stTwoCodes : WorkflowState :=
  { context := { raw_text := "", cities := some ["Delhi", "Mumbai"],
                 time := some (some "morning"), iatas := some ["DEL", "BOM"] } }

/-- A ready-to-fetch state for DEL alone, morning bucket. -/
def stDelOnly : WorkflowState :=
  { context := { time := some (some "morning"), iatas := some ["DEL"] } }

/-- A state in which entity extraction ran but found no time keyword, so the
`time` key holds Python `None`. -/
def stNoTime : WorkflowState :=
  { context := { time := some none, iatas := some ["DEL"] } }

/-! ## Claim C5 -/

/-- Claim C5: the time filter keeps exactly the records that carry a scheduled
departure and whose parsed hour lies in the requested bucket, with boundaries
morning = [5,12), afternoon = [12,17), night = [17,24) ∪ [0,5); every record
without a scheduled departure is dropped for every bucket, and the boundary
hours 5, 12, 17, 4, 11 classify as morning, afternoon, night, night, morning
respectively. -/
theorem C5_time_filter_boundaries :
    (∀ fl b, (filter_flights_by_time fl b).all (fun f => (depSched f).isSome) = true) ∧
    (∀ fl, filter_flights_by_time fl "morning" =
      fl.filter (fun f => match depSched f with
        | some h => decide (5 ≤ h ∧ h < 12)
        | none => false)) ∧
    (∀ fl, filter_flights_by_time fl "afternoon" =
      fl.filter (fun f => match depSched f with
        | some h => decide (12 ≤ h ∧ h < 17)
        | none => false)) ∧
    (∀ fl, (∀ f ∈ fl, ∀ h, depSched f = some h → h < 24) →
      filter_flights_by_time fl "night" =
      fl.filter (fun f => match depSched f with
        | some h => decide ((17 ≤ h ∧ h < 24) ∨ h < 5)
        | none => false)) ∧
    (filter_flights_by_time [mkRec 5, mkRec 12, mkRec 17, mkRec 4, mkRec 11] "morning" =
      [mkRec 5, mkRec 11]) ∧
    (filter_flights_by_time [mkRec 5, mkRec 12, mkRec 17, mkRec 4, mkRec 11] "afternoon" =
      [mkRec 12]) ∧
    (filter_flights_by_time [mkRec 5, mkRec 12, mkRec 17, mkRec 4, mkRec 11] "night" =
      [mkRec 17, mkRec 4]) := by
  refine ⟨?_, ?_, ?_, ?_, by decide, by decide, by decide⟩
  · intro fl b
    rw [List.all_eq_true]
    intro f hf
    rcases List.mem_filter.mp hf with ⟨_, hkeep⟩
    cases hd : depSched f with
    | none => rw [keepFlight, hd] at hkeep; exact absurd hkeep (by simp)
    | some h => simp [hd]
  · intro fl
    rw [filter_flights_by_time]
    apply List.filter_congr
    intro f _
    cases hd : depSched f with
    | none => simp [keepFlight, hd]
    | some h =>
      by_cases h1 : 5 ≤ h <;> by_cases h2 : h < 12 <;> simp [keepFlight, hd, h1, h2]
  · intro fl
    rw [filter_flights_by_time]
    apply List.filter_congr
    intro f _
    cases hd : depSched f with
    | none => simp [keepFlight, hd]
    | some h =>
      by_cases h1 : 12 ≤ h <;> by_cases h2 : h < 17 <;> simp [keepFlight, hd, h1, h2]
  · intro fl hb
    rw [filter_flights_by_time]
    apply List.filter_congr
    intro f hf
    cases hd : depSched f with
    | none => simp [keepFlight, hd]
    | some h =>
      have hlt : h < 24 := hb f hf h hd
      simp only [keepFlight, hd]
      by_cases h17 : 17 ≤ h <;> by_cases h5 : h < 5 <;>
        simp [h17, h5, hlt]

/-- Witness for C5: the night-bucket characterization applied to the concrete
boundary list, whose hours are all below 24. -/
theorem C5_time_filter_boundaries_witness :
    filter_flights_by_time [mkRec 17, mkRec 4] "night" =
      List.filter (fun f => match depSched f with
        | some h => decide ((17 ≤ h ∧ h < 24) ∨ h < 5)
        | none => false) [mkRec 17, mkRec 4] := by
  have h := C5_time_filter_boundaries.2.2.2.1 [mkRec 17, mkRec 4] (by decide)
  exact h

/-! ## Claim C10 -/

/-- Claim C10: the three buckets partition the records carrying a scheduled
departure hour: exactly one of the morning, afternoon and night filters keeps
any such record. -/
theorem C10_bucket_partition :
    ∀ (f : FlightRecord) (h : Nat), depSched f = some h →
      (filter_flights_by_time [f] "morning").length +
      (filter_flights_by_time [f] "afternoon").length +
      (filter_flights_by_time [f] "night").length = 1 := by
  intro f h hd
  simp only [filter_flights_by_time, List.filter, keepFlight, hd]
  by_cases h5 : 5 ≤ h <;> by_cases h12 : h < 12 <;>
    by_cases h12b : 12 ≤ h <;> by_cases h17 : h < 17 <;>
    by_cases h17b : 17 ≤ h <;> by_cases h4 : h < 5 <;>
    simp [h5, h12, h12b, h17, h17b, h4] <;> omega

/-- Witness for C10 at the concrete record with hour 9 (a morning flight). -/
theorem C10_bucket_partition_witness :
    (filter_flights_by_time [mkRec 9] "morning").length +
    (filter_flights_by_time [mkRec 9] "afternoon").length +
    (filter_flights_by_time [mkRec 9] "night").length = 1 :=
  C10_bucket_partition (mkRec 9) 9 rfl

/-! ## Claim C6 -/

/-- The deterministic node sequence the chatbot runs on each turn before
deciding whether to clarify: `parse_request_text`, `extract_entities`,
`solution_evaluation`, here on a fresh query holding `text`. -/
def clarifyTurn (text : String) : WorkflowState :=
  solution_evaluation (extract_entities (parse_request_text (initState text)))

theorem solution_evaluation_context (st : WorkflowState) :
    (solution_evaluation st).context = st.context := by
  simp only [solution_evaluation]
  split <;> split <;> split <;> rfl

theorem solution_evaluation_cases (st : WorkflowState) (L : List String)
    (t : Option String) (hc : st.context.cities = some L)
    (ht : st.context.time = some t) (hne : t ≠ some "") :
    ((solution_evaluation st).clarification_needed =
      (decide (st.context.cities = some []) || decide (st.context.time = some none))) ∧
    (st.context.cities = some [] → st.context.time = some none →
      (solution_evaluation st).clarifying_question =
        "Could you please specify departure city, departure time (morning/afternoon/night)?") ∧
    (st.context.cities = some [] → st.context.time ≠ some none →
      (solution_evaluation st).clarifying_question =
        "Could you please specify departure city?") ∧
    (st.context.cities ≠ some [] → st.context.time = some none →
      (solution_evaluation st).clarifying_question =
        "Could you please specify departure time (morning/afternoon/night)?") := by
  rw [hc, ht]
  cases L with
  | nil =>
    cases t with
    | none =>
      refine ⟨?_, ?_, ?_, ?_⟩
      · simp [solution_evaluation, citiesFalsy, timeFalsy, hc, ht]
      · intro _ _
        simp [solution_evaluation, citiesFalsy, timeFalsy, hc, ht]
        decide
      · intro _ h
        exact absurd rfl h
      · intro h _
        exact absurd rfl h
    | some s =>
      have hs : (s == "") = false :=
        beq_eq_false_iff_ne.mpr (fun h => hne (by rw [h]))
      refine ⟨?_, ?_, ?_, ?_⟩
      · simp [solution_evaluation, citiesFalsy, timeFalsy, hc, ht, hs]
      · intro _ h
        exact absurd (Option.some.inj h) (Option.some_ne_none s)
      · intro _ _
        simp [solution_evaluation, citiesFalsy, timeFalsy, hc, ht, hs]
        decide
      · intro h _
        exact absurd rfl h
  | cons c cs =>
    cases t with
    | none =>
      refine ⟨?_, ?_, ?_, ?_⟩
      · simp [solution_evaluation, citiesFalsy, timeFalsy, hc, ht]
      · intro h _
        exact absurd h (by simp)
      · intro h _
        exact absurd h (by simp)
      · intro _ _
        simp [solution_evaluation, citiesFalsy, timeFalsy, hc, ht]
        decide
    | some s =>
      have hs : (s == "") = false :=
        beq_eq_false_iff_ne.mpr (fun h => hne (by rw [h]))
      refine ⟨?_, ?_, ?_, ?_⟩
      · simp [solution_evaluation, citiesFalsy, timeFalsy, hc, ht, hs]
      · intro h _
        exact absurd h (by simp)
      · intro h _
        exact absurd h (by simp)
      · intro _ h
        exact absurd (Option.some.inj h) (Option.some_ne_none s)

theorem clarifyTurn_time (text : String) :
    ∃ t, (clarifyTurn text).context.time = some t ∧ t ≠ some "" := by
  rw [clarifyTurn, solution_evaluation_context]
  refine ⟨_, rfl, ?_⟩
  show (if containsStr (strLower (initState text).context.raw_text) "morning" then some "morning"
    else if containsStr (strLower (initState text).context.raw_text) "afternoon" then some "afternoon"
    else if containsStr (strLower (initState text).context.raw_text) "night" then some "night"
    else none) ≠ some ""
  split_ifs <;> simp

/-- Claim C6: after a turn's extraction, clarification is requested exactly
when the extracted city list is empty or no time bucket was found, and the
clarifying prompt names exactly the missing fields, city before time, joined
with a comma — for both missing, the exact sentence of the specification. -/
theorem C6_clarification_exactness (text : String) :
    ((clarifyTurn text).clarification_needed =
      (decide ((clarifyTurn text).context.cities = some []) ||
       decide ((clarifyTurn text).context.time = some none))) ∧
    ((clarifyTurn text).context.cities = some [] →
      (clarifyTurn text).context.time = some none →
      (clarifyTurn text).clarifying_question =
        "Could you please specify departure city, departure time (morning/afternoon/night)?") ∧
    ((clarifyTurn text).context.cities = some [] →
      (clarifyTurn text).context.time ≠ some none →
      (clarifyTurn text).clarifying_question =
        "Could you please specify departure city?") ∧
    ((clarifyTurn text).context.cities ≠ some [] →
      (clarifyTurn text).context.time = some none →
      (clarifyTurn text).clarifying_question =
        "Could you please specify departure time (morning/afternoon/night)?") := by
  obtain ⟨t, ht, hne⟩ := clarifyTurn_time text
  rw [clarifyTurn] at ht ⊢
  rw [solution_evaluation_context] at ht
  rw [show ∀ st : WorkflowState, (solution_evaluation st).context = st.context from
    solution_evaluation_context]
  exact solution_evaluation_cases _ _ t rfl ht hne

/-- Witness for C6: the end-to-end scenario "I want to fly somewhere" — no
city, no time keyword — yields the exact clarification prompt of the
specification. -/
theorem C6_clarification_exactness_witness :
    (clarifyTurn "I want to fly somewhere").clarifying_question =
      "Could you please specify departure city, departure time (morning/afternoon/night)?" :=
  (C6_clarification_exactness "I want to fly somewhere").2.1 (by decide) (by decide)

/-! ## Claim C8 -/

theorem lookupCity_code (city iata : String) (h : lookupCity city = some iata) :
    city_to_iata.any (fun p => p.2 == iata) = true := by
  by_cases h1 : (("Delhi" : String) == city) = true <;>
    by_cases h2 : (("Mumbai" : String) == city) = true <;>
      by_cases h3 : (("Bangalore" : String) == city) = true <;>
        simp [lookupCity, city_to_iata, List.find?, h1, h2, h3] at h <;>
          simp [city_to_iata, h]

theorem appendIata_all (acc : List String) (city : String)
    (h : acc.all (fun i => city_to_iata.any (fun p => p.2 == i)) = true) :
    (appendIata acc city).all (fun i => city_to_iata.any (fun p => p.2 == i)) = true := by
  rw [appendIata]
  cases hc : lookupCity city with
  | none => exact h
  | some iata =>
    by_cases he : (iata == "") = true
    · simp [he, h]
    · simp only [he, if_false, Bool.false_eq_true, List.all_append, Bool.and_eq_true]
      exact ⟨h, by simp [lookupCity_code city iata hc]⟩

theorem normalize_fold_all (cities : List String) :
    ∀ acc, acc.all (fun i => city_to_iata.any (fun p => p.2 == i)) = true →
      (cities.foldl appendIata acc).all
        (fun i => city_to_iata.any (fun p => p.2 == i)) = true := by
  induction cities with
  | nil => intro acc h; exact h
  | cons c rest ih =>
    intro acc h
    rw [List.foldl_cons]
    exact ih _ (appendIata_all acc c h)

/-- Claim C8: the normalizer emits the location codes of the extracted cities
in the iteration order of the static lookup table (which is also the order
the extractor produces, since it iterates the table, not the text); every
city without a table mapping is dropped with no surfaced error — the `iatas`
list only ever contains codes of the table.  The third conjunct shows a text
naming Mumbai before Delhi still yields table order DEL, BOM; the fourth
shows the unmapped city Paris being silently dropped. -/
theorem C8_normalizer_table_order :
    (∀ st, (normalize_fields (parse_request_text st)).context.iatas =
      some ((city_to_iata.filter (cityMatches (strLower st.context.raw_text))).map
        Prod.snd)) ∧
    (∀ st, ((normalize_fields st).context.iatas.getD []).all
      (fun i => city_to_iata.any (fun p => p.2 == i)) = true) ∧
    ((normalize_fields (parse_request_text
        (initState "flights from mumbai and delhi"))).context.iatas =
      some ["DEL", "BOM"]) ∧
    ((normalize_fields
        { context := { cities := some ["Paris", "Delhi"] } }).context.iatas =
      some ["DEL"]) := by
  refine ⟨?_, ?_, by decide, by decide⟩
  · intro st
    simp only [parse_request_text, normalize_fields, city_to_iata]
    cases hb1 : cityMatches (strLower st.context.raw_text) ("Delhi", "DEL") <;>
      cases hb2 : cityMatches (strLower st.context.raw_text) ("Mumbai", "BOM") <;>
        cases hb3 : cityMatches (strLower st.context.raw_text) ("Bangalore", "BLR") <;>
          simp [List.filter, hb1, hb2, hb3, appendIata, lookupCity, city_to_iata,
            List.find?]
  · intro st
    simp only [normalize_fields]
    exact normalize_fold_all _ [] (by simp)

/-! ## Claim C1 -/

/-- Claim C1 (code bug in `complete_payload`): a record missing a required
nested field is not skipped — the `KeyError` from direct indexing aborts the
whole response, discarding even the fully well-formed record of the same
batch; the same batch without the malformed record aggregates fine. -/
theorem C1_aggregator_keyerror :
    complete_payload { results_flights := some [goodFlight, noAirlineFlight] } =
      Except.error "KeyError: airline" ∧
    complete_payload { results_flights := some [goodFlight] } =
      Except.ok (PayloadOut.merged
        [("Indira Gandhi Intl",
          [{ airline := "Air India", flight_iata := "AI101", departure := 6,
             arrival := "Chhatrapati Shivaji Intl" }])]) :=
  ⟨rfl, rfl⟩

/-! ## Claim C2 -/

/-- Claim C2 (code bug in `execute_api_calls`): with an empty cache and codes
DEL then BOM, DEL's fetch leaves its records in `results["flights"]`; BOM's
cache lookup misses (`hit = false`), yet the leftover nonempty buffer passes
the `if flights:` test, so no provider request is ever issued for BOM and
DEL's record is appended a second time in BOM's place. -/
theorem C2_cache_miss_not_paginated :
    (execute_api_calls providerDelOnly [] stTwoCodes).log =
      [Event.lookup "DEL_morning" false,
       Event.request "DEL" 100 0 (ReqOutcome.got [goodFlight]),
       Event.request "DEL" 100 100 (ReqOutcome.got []),
       Event.lookup "BOM_morning" false] ∧
    (execute_api_calls providerDelOnly [] stTwoCodes).state.results_flights =
      some [goodFlight, goodFlight] := by
  decide

/-! ## Claim C3 -/

/-- Claim C3 (code bug in `execute_api_calls`): a first fetch that stores an
empty record list under the cache key does not shield the second identical
fetch from the network — the second run's lookup hits (`hit = true`) yet a
provider request is issued anyway, because the empty cached list fails the
`if flights:` truthiness test. -/
theorem C3_cache_hit_still_requests :
    (execute_api_calls providerEmpty [] stDelOnly).cache = [("DEL_morning", [])] ∧
    (execute_api_calls providerEmpty
        (execute_api_calls providerEmpty [] stDelOnly).cache stDelOnly).log =
      [Event.lookup "DEL_morning" true,
       Event.request "DEL" 100 0 (ReqOutcome.got [])] := by
  decide

/-! ## Claim C9 -/

/-- Counterexample for claim C9: after an extraction turn that found no time
keyword, the `time` key holds Python `None`, so
`state.context.get('time', 'any')` returns `None` — the cache key is
`"DEL_None"`, not `"DEL_any"` as the claim states. -/
theorem C9_cache_key_counterexample :
    cacheKeyOf "DEL" (some none) = "DEL_None" ∧
    cacheKeyOf "DEL" (some none) ≠ "DEL_any" ∧
    lookupKeys (execute_api_calls providerEmpty [] stNoTime).log = ["DEL_None"] := by
  decide

/-- Claim C9 as amended: every cache key the engine consults is the location
code, an underscore, and the stored time bucket when one was extracted; the
literal `"None"` when extraction ran but found no keyword (Python `None`
formatted by the f-string); and the default `"any"` only when the `time` key
is absent from the context altogether. -/
theorem C9_cache_key_amended :
    (∀ (provider : Provider) (cache : Cache) (st : WorkflowState),
      lookupKeys (execute_api_calls provider cache st).log =
        (st.context.iatas.getD []).map (fun i => cacheKeyOf i st.context.time)) ∧
    (∀ iata t, cacheKeyOf iata (some (some t)) = iata ++ "_" ++ t) ∧
    (∀ iata, cacheKeyOf iata (some none) = iata ++ "_" ++ "None") ∧
    (∀ iata, cacheKeyOf iata none = iata ++ "_" ++ "any") := by
  refine ⟨?_, fun _ _ => rfl, fun _ => rfl, fun _ => rfl⟩
  intro provider cache st
  simp only [execute_api_calls]
  rw [run_lookupKeys]
  simp [lookupKeys, initAcc]

/-! ## Claim C4 -/

/-- Claim C4: provider failures are isolated at single-location-code
granularity.  (1) Whatever the provider does — including transport failures —
every requested code's cache lookup is still performed, in order: no
exception terminates the query.  (2) Every record a successful page request
delivered (after the engine's own time filtering) is present in the final
combined flight list: partial results of a failing code are kept, and the
other code's successfully fetched records always survive.  (3) For distinct
codes, a failed request to a code is the last request issued to that code:
its pagination stops at the error. -/
theorem C4_failure_isolation (provider : Provider) (cache : Cache)
    (st : WorkflowState) :
    (lookupKeys (execute_api_calls provider cache st).log =
      (st.context.iatas.getD []).map (fun i => cacheKeyOf i st.context.time)) ∧
    (∀ e ∈ (execute_api_calls provider cache st).log, ∀ i lim off raw,
      e = Event.request i lim off (ReqOutcome.got raw) →
      ∀ x ∈ applyTimeFilter st.context.time raw,
        x ∈ ((execute_api_calls provider cache st).state.results_flights.getD [])) ∧
    ((st.context.iatas.getD []).Nodup → ∀ i pre e post,
      reqsTo i (execute_api_calls provider cache st).log = pre ++ e :: post →
      isFailedEv e = true → post = []) := by
  refine ⟨?_, ?_, ?_⟩
  · simp only [execute_api_calls]
    rw [run_lookupKeys]
    simp [lookupKeys, initAcc]
  · simp only [execute_api_calls, Option.getD_some]
    exact run_fetchedKept provider st.context.time (st.context.iatas.getD [])
      (initAcc st cache) (by intro e he; simp [initAcc] at he)
  · intro hnd i pre e post hdec hfail
    simp only [execute_api_calls] at hdec
    obtain ⟨T, hT, _, _, hlast⟩ := run_reqsTo provider st.context.time
      (st.context.iatas.getD []) (initAcc st cache) i hnd
    rw [show reqsTo i (initAcc st cache).log = [] from rfl,
      List.nil_append] at hT
    exact hlast pre e post (hT.symm.trans hdec) hfail

/-- Witness for C4: DEL fails with a transport error on every page while BOM
serves a morning flight; both codes are still looked up, BOM's flight is in
the final result, and DEL's failed request is its last. -/
theorem C4_failure_isolation_witness :
    lookupKeys (execute_api_calls providerDelFails [] stTwoCodes).log =
      ["DEL_morning", "BOM_morning"] ∧
    goodFlight ∈
      ((execute_api_calls providerDelFails [] stTwoCodes).state.results_flights.getD []) ∧
    ([] : List Event) = [] := by
  obtain ⟨h1, h2, h3⟩ := C4_failure_isolation providerDelFails [] stTwoCodes
  refine ⟨?_, ?_, ?_⟩
  · rw [h1]
    decide
  · exact h2 (Event.request "BOM" 100 0 (ReqOutcome.got [goodFlight])) (by decide)
      "BOM" 100 0 [goodFlight] rfl goodFlight (by decide)
  · exact h3 (by decide) "DEL" []
      (Event.request "DEL" 100 0 (ReqOutcome.failed "boom")) []
      (by decide) (by decide)

/-! ## Claim C7 -/

theorem rawTotal_le_200 (l : List Event) (hlen : l.length ≤ 2)
    (hb : ∀ e ∈ l, rawCount e ≤ 100) : rawTotal l ≤ 200 := by
  match l with
  | [] => simp [rawTotal]
  | [a] =>
    have := hb a (by simp)
    simp only [rawTotal, List.map, List.sum_cons, List.sum_nil]
    omega
  | [a, b] =>
    have h1 := hb a (by simp)
    have h2 := hb b (by simp)
    simp only [rawTotal, List.map, List.sum_cons, List.sum_nil]
    omega
  | a :: b :: c :: l' =>
    simp at hlen

/-- Claim C7: in a query over distinct location codes, the engine issues at
most two page requests for any single code, each with `limit = 100`; hence
whenever the provider's pages carry at most 100 records each — in particular
always-full 100-record pages — at most 200 raw records are considered for
that code. -/
theorem C7_pagination_cap (provider : Provider) (cache : Cache)
    (st : WorkflowState) (i : String)
    (hnd : (st.context.iatas.getD []).Nodup) :
    (reqsTo i (execute_api_calls provider cache st).log).length ≤ 2 ∧
    (∀ e ∈ reqsTo i (execute_api_calls provider cache st).log, reqLim e = 100) ∧
    ((∀ e ∈ reqsTo i (execute_api_calls provider cache st).log, rawCount e ≤ 100) →
      rawTotal (reqsTo i (execute_api_calls provider cache st).log) ≤ 200) := by
  obtain ⟨T, hT, hlen, hshape, _⟩ := run_reqsTo provider st.context.time
    (st.context.iatas.getD []) (initAcc st cache) i hnd
  rw [show reqsTo i (initAcc st cache).log = [] from rfl,
    List.nil_append] at hT
  have hrun : reqsTo i (execute_api_calls provider cache st).log = T := by
    simp only [execute_api_calls]
    exact hT
  rw [hrun]
  refine ⟨hlen, ?_, rawTotal_le_200 T hlen⟩
  intro e he
  rcases hshape e he with ⟨off, out, rfl⟩
  rfl

/-- Witness for C7: the single-code morning query against the all-empty
provider — distinct codes and pages within the 100-record bound. -/
theorem C7_pagination_cap_witness :
    (reqsTo "DEL" (execute_api_calls providerEmpty [] stDelOnly).log).length ≤ 2 ∧
    rawTotal (reqsTo "DEL" (execute_api_calls providerEmpty [] stDelOnly).log) ≤ 200 := by
  obtain ⟨h1, _, h3⟩ := C7_pagination_cap providerEmpty [] stDelOnly "DEL" (by decide)
  exact ⟨h1, h3 (by decide)⟩

end Flightbot
